import Mathlib

/-!
Verification of the datarails-demo mock backend (frontend/src/mocks).

The development shallowly embeds the mock data layer (`mockData` /
`browser.ts`) and the MSW request handlers: job creation, the simulated
job progression, status snapshots, sample jobs, employee generation and
the employees listing.  JavaScript numbers that stay integral are
modelled as `ℤ`/`ℕ`; the fractional `currentRows` accumulator of the
progress simulator is modelled as `ℚ`; timestamps are opaque strings.
-/

/-- Job status values, from the union type in `types/job.types.ts`
(`'pending' | 'processing' | 'completed' | 'failed'`). -/
inductive JobStatus where
  | pending
  | processing
  | completed
  | failed
deriving DecidableEq

/-- Row-level error record, from `interface JobError` (row, field, message). -/
structure JobError where
  row : ℕ
  field : String
  message : String
deriving DecidableEq

/-- The eight entries of `MOCK_JOB_ERRORS` in `mockData`. -/
def MOCK_JOB_ERRORS : List JobError :=
  [ ⟨15, "salary", "Invalid numeric value: expected number, got \x22fifty\x22"⟩,
    ⟨142, "department_code", "Invalid department code: \x22fin\x22 (expected uppercase)"⟩,
    ⟨156, "employee_id", "Missing required field: employee_id"⟩,
    ⟨223, "department_code", "Invalid department code: \x22ops\x22 (expected uppercase)"⟩,
    ⟨259, "name", "Name contains extra whitespace: \x22  Richard Allen  \x22"⟩,
    ⟨329, "department_code", "Department code contains extra whitespace: \x22  HR  \x22"⟩,
    ⟨468, "department_code", "Invalid department code: \x22hr\x22 (expected uppercase)"⟩,
    ⟨512, "hire_date", "Invalid date format: expected YYYY-MM-DD"⟩ ]

/-- One entry of the `MOCK_JOBS` map, from `interface MockJob` in `mockData`. -/
structure MockJob where
  job_id : String
  filename : String
  file_size : ℕ
  status : JobStatus
  current_step : String
  started_at : String
  completed_at : Option String
  processed_rows : ℤ
  employee_count : ℕ
deriving DecidableEq

/-- The constant `total_rows = 508` used by `getMockJobStatus` and
`simulateJobProgress`. -/
def totalRows : ℕ := 508

/-- The `steps` array of `simulateJobProgress`: name, duration (ms), row ceiling. -/
def simSteps : List (String × ℕ × ℕ) :=
  [("pending", 1000, 0), ("reading", 2000, 100), ("validating", 3000, 300),
   ("transforming", 4000, 450), ("persisting", 2000, 500)]

/-- `steps[i].name` (empty string out of range; the simulation only uses `i < 5`). -/
def stepName (i : ℕ) : String := ((simSteps.get? i).map Prod.fst).getD ""

/-- `steps[i].duration`, as a rational for the `rowsPerUpdate` computation. -/
def stepDuration (i : ℕ) : ℚ := ((((simSteps.get? i).map fun s => s.2.1).getD 0 : ℕ) : ℚ)

/-- `steps[i].rows`, the per-step ceiling `endRows`. -/
def stepRows (i : ℕ) : ℚ := ((((simSteps.get? i).map fun s => s.2.2).getD 0 : ℕ) : ℚ)

/-- `startRows` of step `i`: `currentStep > 0 ? steps[currentStep - 1].rows : 0`. -/
def stepStartRows : ℕ → ℚ
  | 0 => 0
  | i + 1 => stepRows i

/-- `rowsPerUpdate = (endRows - startRows) / (stepDuration / updateInterval)` with
`updateInterval = 200`. -/
def rowsPerUpdate (i : ℕ) : ℚ := (stepRows i - stepStartRows i) / (stepDuration i / 200)

/-- Value of the local `currentRows` of step `i` after `k` executions of the
200 ms interval callback: each tick performs
`currentRows = Math.min(currentRows + rowsPerUpdate, endRows)`. -/
def currentRowsAt (i : ℕ) : ℕ → ℚ
  | 0 => stepStartRows i
  | k + 1 => min (currentRowsAt i k + rowsPerUpdate i) (stepRows i)

/-- The job record as stored by `MOCK_JOBS.set` inside `createMockJob`:
status `'pending'`, step `'pending'`, zero processed rows. -/
def createMockJob (job_id filename : String) (file_size : ℕ) (started_at : String) :
    MockJob :=
  { job_id := job_id, filename := filename, file_size := file_size,
    status := .pending, current_step := "pending", started_at := started_at,
    completed_at := none, processed_rows := 0, employee_count := 0 }

/-- Snapshot written by the `k`-th interval tick of step `i`:
`job.processed_rows = Math.floor(currentRows)` with status already `'processing'`. -/
def tickSnap (base : MockJob) (i k : ℕ) : MockJob :=
  { base with
    status := .processing
    current_step := stepName i
    processed_rows := ⌊currentRowsAt i k⌋ }

/-- Snapshot visible right after `processStep` enters step `i` (it assigns
`job.status = 'processing'` on the first step and `job.current_step = step.name`);
`processed_rows` still holds the value `p` retained from the previous step. -/
def enterSnap (base : MockJob) (i : ℕ) (p : ℤ) : MockJob :=
  { base with status := .processing, current_step := stepName i, processed_rows := p }

/-- Snapshots of the ticks `t+1, …, t+r` of step `i`, in order. -/
def tickSnaps (base : MockJob) (i : ℕ) : ℕ → ℕ → List MockJob
  | _, 0 => []
  | t, r + 1 => tickSnap base i (t + 1) :: tickSnaps base i (t + 1) r

/-- `processed_rows` retained after a step that ran `k` ticks, having entered the
step with value `p` (the interval only assigns on ticks, so `k = 0` keeps `p`). -/
def blockEndRows (i k : ℕ) (p : ℤ) : ℤ :=
  match k with
  | 0 => p
  | k + 1 => ⌊currentRowsAt i (k + 1)⌋

/-- Terminal snapshot written by the `else` branch of `processStep`:
status `'completed'`, `processed_rows = total_rows`, `completed_at` set,
`employee_count = total_rows - MOCK_JOB_ERRORS.length`. -/
def completedSnap (base : MockJob) (tEnd : String) : MockJob :=
  { base with
    status := .completed
    current_step := "completed"
    processed_rows := (totalRows : ℤ)
    completed_at := some tEnd
    employee_count := totalRows - MOCK_JOB_ERRORS.length }

/-- Observable job snapshots produced by `simulateJobProgress` from step `i`
onwards, where `ks` lists how many interval ticks fire in each remaining step
(the real count depends on timer scheduling, so it is universally quantified)
and `p` is the `processed_rows` value retained on entry. -/
def runBlocks (base : MockJob) (tEnd : String) : ℕ → List ℕ → ℤ → List MockJob
  | _, [], _ => [completedSnap base tEnd]
  | i, k :: ks, p =>
    (enterSnap base i p :: tickSnaps base i 0 k) ++
      runBlocks base tEnd (i + 1) ks (blockEndRows i k p)

/-- Full observable history of a job created by `createMockJob` and driven by
`simulateJobProgress`: the freshly stored pending record, then the snapshots of
the five steps, then the completed snapshot. -/
def jobTrace (base : MockJob) (tEnd : String) (ks : List ℕ) : List MockJob :=
  base :: runBlocks base tEnd 0 ks base.processed_rows

/-- Structural facts about step `i` of the `steps` array that the progression
proofs rely on: the starting row count is nonnegative and at most the ceiling,
rows are added at a nonnegative rate, and the ceiling stays within 508. -/
def goodStep (i : ℕ) : Prop :=
  0 ≤ stepStartRows i ∧ stepStartRows i ≤ stepRows i ∧
    0 ≤ rowsPerUpdate i ∧ stepRows i ≤ 508

/-- Ordering of `processed_rows` between two consecutive observable snapshots. -/
def procLE (a b : MockJob) : Prop := a.processed_rows ≤ b.processed_rows

/-- Shape of the object literal that `getMockJobStatus` returns (its exact
field set; note it has no `created_at`/`updated_at` and no `file_path`). -/
structure MockStatusResp where
  job_id : String
  filename : String
  status : JobStatus
  current_step : String
  total_rows : ℤ
  processed_rows : ℤ
  error_rows : ℤ
  errors : List JobError
  started_at : String
  completed_at : Option String
deriving DecidableEq

/-- Body of `getMockJobStatus` for a job found in the map:
`total_rows = 508`, and `error_rows`/`errors` are populated from
`MOCK_JOB_ERRORS` only when the job is completed. -/
def statusRespOf (job : MockJob) : MockStatusResp :=
  { job_id := job.job_id
    filename := job.filename
    status := job.status
    current_step := job.current_step
    total_rows := (totalRows : ℤ)
    processed_rows := job.processed_rows
    error_rows := if job.status = .completed then (MOCK_JOB_ERRORS.length : ℤ) else 0
    errors := if job.status = .completed then MOCK_JOB_ERRORS else []
    started_at := job.started_at
    completed_at := job.completed_at }

/-- `getMockJobStatus`: look the id up in the jobs store (`MOCK_JOBS.get`),
returning `none` (`null`) for an unknown id. -/
def getMockJobStatus (jobs : List (String × MockJob)) (job_id : String) :
    Option MockStatusResp :=
  (List.lookup job_id jobs).map statusRespOf

/-- The three demo jobs installed by `initializeSampleJobs` at module load;
the timestamps are opaque parameters. -/
def initSampleJobs (t1 t2 t3 t4 t5 t6 : String) : List (String × MockJob) :=
  [ ("demo-completed-job-001",
     { job_id := "demo-completed-job-001", filename := "employees_2024_q4.xlsx",
       file_size := 245760, status := .completed, current_step := "completed",
       started_at := t1, completed_at := some t2, processed_rows := 508,
       employee_count := 500 }),
    ("demo-completed-job-002",
     { job_id := "demo-completed-job-002", filename := "january_payroll.xlsx",
       file_size := 189440, status := .completed, current_step := "completed",
       started_at := t3, completed_at := some t4, processed_rows := 508,
       employee_count := 500 }),
    ("demo-failed-job-001",
     { job_id := "demo-failed-job-001", filename := "corrupted_data.xls",
       file_size := 98304, status := .failed, current_step := "validating",
       started_at := t5, completed_at := some t6, processed_rows := 150,
       employee_count := 0 }) ]

/-- Status transitions permitted by the spec state machine
`Pending → Processing → {Completed, Failed}` (staying put is allowed;
terminal states only loop to themselves). -/
def allowedTransition (a b : JobStatus) : Prop :=
  a = b ∨ (a = .pending ∧ b = .processing) ∨
    (a = .processing ∧ (b = .completed ∨ b = .failed))

/-- Destination record shape, from `interface Employee` in
`types/employee.types.ts`. -/
structure Employee where
  id : String
  created_at : String
  updated_at : String
  employee_id : String
  name : String
  department_code : String
  salary : ℤ
  hire_date : String
  department_name : String
  annual_salary_eur : ℤ
  tenure_years : ℤ
deriving DecidableEq

/-- The `DEPARTMENTS` mapping from codes to full names in `mockData`. -/
def DEPARTMENTS : List (String × String) :=
  [("DEV", "Development"), ("FIN", "Finance"), ("MKT", "Marketing"),
   ("HR", "Human Resources"), ("RND", "Research & Development"),
   ("OPS", "Operations")]

/-- The `deptCodes` array of `generateEmployees`. -/
def deptCodes : List String := ["DEV", "FIN", "MKT", "HR", "RND", "OPS"]

/-- The `names` array of `generateEmployees` (50 entries, cycled by `i % 50`). -/
def mockNames : List String :=
  ["Kevin Davis", "Deborah Scott", "Kenneth Johnson", "Donna Moore", "Sarah Martinez",
   "Matthew Campbell", "Anthony Garcia", "Melissa Jones", "William Harris", "Brian Moore",
   "Edward Thomas", "Amanda Lee", "Sarah Jones", "Betty Robinson", "Donna Ramirez",
   "Patricia Davis", "Anthony Campbell", "Amanda Davis", "Christopher Ramirez", "Kevin Martin",
   "Andrew Wright", "Karen Thomas", "Andrew Rodriguez", "Edward Gonzalez", "Michael Perez",
   "Kevin Brown", "Brian Allen", "Jessica Young", "Mark Robinson", "Edward Perez",
   "Margaret Lopez", "Emily Miller", "Richard Clark", "James Harris", "Emily Allen",
   "Patricia Lee", "Paul Garcia", "Linda Peterson", "Joshua Wright", "Betty Rodriguez",
   "Michelle Peterson", "Matthew Jones", "Karen Wright", "David Taylor", "Susan Perez",
   "Patricia Garcia", "Charles Hernandez", "George Martinez", "Karen White", "William Thompson"]

/-- Calendar date with 1-based month, used to model JavaScript `Date`
values at local midnight. -/
structure Date where
  year : ℕ
  month : ℕ
  day : ℕ
deriving DecidableEq

/-- Gregorian leap-year rule. -/
def isLeapYear (y : ℕ) : Bool := y % 4 = 0 && (y % 100 ≠ 0 || y % 400 = 0)

/-- Cumulative day counts before each month in a non-leap year. -/
def monthsCumDays : List ℕ := [0, 31, 59, 90, 120, 151, 181, 212, 243, 273, 304, 334]

/-- Number of leap years in `[0, y)` (year 0 counted as leap). -/
def leapDaysBefore (y : ℕ) : ℕ := (y + 3) / 4 - (y + 99) / 100 + (y + 399) / 400

/-- Linear day count of a Gregorian date; differences of `dayNumber` give the
exact number of calendar days between two dates, which is what differences of
JavaScript `Date.getTime()` values divided by 86 400 000 produce for dates at
midnight in a fixed-offset timezone. -/
def dayNumber (d : Date) : ℕ :=
  365 * d.year + leapDaysBefore d.year + (monthsCumDays.get? (d.month - 1)).getD 0 +
    (if 3 ≤ d.month ∧ isLeapYear d.year then 1 else 0) + (d.day - 1)

/-- Millisecond clock value of a date (shifted from the Unix epoch by a fixed
constant, which cancels in every difference the code takes). -/
def epochMs (d : Date) : ℤ := (dayNumber d : ℤ) * 86400000

/-- The hire date `new Date(2015 + Math.floor(i / 100), (i % 12), 1 + (i % 28))`
of the `i`-th generated employee (JavaScript months are 0-based). -/
def hireDateOf (i : ℕ) : Date := ⟨2015 + i / 100, i % 12 + 1, 1 + i % 28⟩

/-- JavaScript `Math.round` (round half up) on rationals. -/
def jsRound (x : ℚ) : ℤ := ⌊x + 1 / 2⌋

/-- Decimal digit characters of `n`, most significant first
(the characters of JavaScript `String(n)` for `n ≥ 1`). -/
def decDigitChars (n : ℕ) : List Char := ((Nat.digits 10 n).reverse).map Nat.digitChar

/-- JavaScript `padStart(4, '0')` on a character list. -/
def padStart4 (l : List Char) : List Char := List.replicate (4 - l.length) '0' ++ l

/-- The `employee_id` assigned to position `i`:
`` `E${String(i + 1).padStart(4, '0')}` ``. -/
def employeeIdOf (i : ℕ) : String := "E" ++ String.mk (padStart4 (decDigitChars (i + 1)))

/-- One record built by the loop body of `generateEmployees`.  `uuidOf`
abstracts `crypto.randomUUID`, `salaryOf` abstracts `Math.floor(Math.random() *
65000)` (reduced mod 65000 to reflect its range), `isoOf`/`isoDateOf` abstract
the ISO timestamp renderings, `nowIso` abstracts `new Date().toISOString()`,
and `today` is the `new Date()` used for the tenure computation. -/
def mkEmployee (uuidOf : ℕ → String) (salaryOf : ℕ → ℕ)
    (isoOf isoDateOf : Date → String) (nowIso : String) (today : Date)
    (i : ℕ) : Employee :=
  let deptCode := (deptCodes.get? (i % deptCodes.length)).getD ""
  let hireDate := hireDateOf i
  let salary : ℤ := ((35000 + salaryOf i % 65000 : ℕ) : ℤ)
  { id := uuidOf i
    created_at := isoOf hireDate
    updated_at := nowIso
    employee_id := employeeIdOf i
    name := (mockNames.get? (i % mockNames.length)).getD ""
    department_code := deptCode
    salary := salary
    hire_date := isoDateOf hireDate
    department_name := (List.lookup deptCode DEPARTMENTS).getD ""
    annual_salary_eur := jsRound ((salary : ℚ) * (92 / 100))
    tenure_years := ⌊((epochMs today - epochMs hireDate : ℤ) : ℚ) /
      ((36525 : ℚ) / 100 * (24 * 60 * 60 * 1000))⌋ }

/-- `generateEmployees(count)`: the `count` records produced by the loop. -/
def generateEmployees (uuidOf : ℕ → String) (salaryOf : ℕ → ℕ)
    (isoOf isoDateOf : Date → String) (nowIso : String) (today : Date)
    (count : ℕ) : List Employee :=
  (List.range count).map (mkEmployee uuidOf salaryOf isoOf isoDateOf nowIso today)

/-- Uploaded file as seen by the upload handler (`formData.get('file')`):
name and byte size. -/
structure FileInfo where
  name : String
  size : ℕ
deriving DecidableEq

/-- Character-list version of `String.startsWith` used to build the suffix
test below by structural recursion. -/
def listStarts : List Char → List Char → Bool
  | [], _ => true
  | _ :: _, [] => false
  | c :: cs, h :: hs => c == h && listStarts cs hs

/-- JavaScript `String.prototype.endsWith`. -/
def strEndsWith (s pat : String) : Bool := listStarts pat.data.reverse s.data.reverse

/-- The `10 * 1024 * 1024` size ceiling of the upload handler. -/
def MAX_UPLOAD_BYTES : ℕ := 10 * 1024 * 1024

/-- Combined mutable module state of `mockData`: the `MOCK_JOBS` map
(modelled as an association list where the most recent binding wins, matching
`Map.set`/`Map.get`) and the `MOCK_EMPLOYEES` array. -/
structure World where
  jobs : List (String × MockJob)
  employees : List Employee
deriving DecidableEq

/-- `MOCK_JOBS.set(id, j)`. -/
def setJob (jobs : List (String × MockJob)) (id : String) (j : MockJob) :
    List (String × MockJob) :=
  (id, j) :: jobs

/-- Result of the `POST /api/upload` handler: 200 with a job id, 400, or 413. -/
inductive UploadResult where
  | ok (job_id : String)
  | badRequest (detail : String)
  | payloadTooLarge (detail : String)
deriving DecidableEq

/-- The `POST /api/upload` handler in `handlers.ts`: reject a missing file
(400), a name not ending in `.xlsx`/`.xls` (400), or a size over 10 MB (413);
otherwise store the new pending job (`createMockJob`) and return its id.
The fresh id produced by `crypto.randomUUID()` is passed in as `id`, and
`now` abstracts the creation timestamp. -/
def uploadHandler (w : World) (file : Option FileInfo) (id now : String) :
    UploadResult × World :=
  match file with
  | none => (.badRequest "No file provided", w)
  | some f =>
    if ¬ (strEndsWith f.name ".xlsx" = true ∨ strEndsWith f.name ".xls" = true) then
      (.badRequest "Only .xlsx and .xls files are supported", w)
    else if MAX_UPLOAD_BYTES < f.size then
      (.payloadTooLarge "File size must be less than 10MB", w)
    else
      (.ok id, { w with jobs := setJob w.jobs id (createMockJob id f.name f.size now) })

/-- Acceptance condition stated by the spec for the upload endpoint: a file is
present, its name ends in `.xlsx` or `.xls`, and its size is at most
`10 * 1024 * 1024` bytes. -/
def validUploadFile : Option FileInfo → Bool
  | none => false
  | some f => (strEndsWith f.name ".xlsx" || strEndsWith f.name ".xls") &&
      f.size ≤ 10 * 1024 * 1024

/-- Effect of `simulateJobProgress(id)` on the module state: each observable
snapshot of the progression is written back into the jobs map in order; the
employees array is never touched (the function only mutates `MOCK_JOBS`).
Unknown ids leave the state unchanged (`if (!job) return`). -/
def simulateJobWorld (w : World) (id : String) (ks : List ℕ) (tEnd : String) : World :=
  match List.lookup id w.jobs with
  | none => w
  | some j =>
    let tr := runBlocks j tEnd 0 ks j.processed_rows
    { w with jobs := tr.foldl (fun js s => setJob js id s) w.jobs }

/-- One full upload round trip: the upload handler followed, on acceptance, by
the job's entire simulated progression. -/
def uploadAndProcess (w : World) (file : Option FileInfo) (id now tEnd : String)
    (ks : List ℕ) : World :=
  match uploadHandler w file id now with
  | (.ok _, w') => simulateJobWorld w' id ks tEnd
  | (_, w') => w'

/-- Result of the `GET /api/status/:jobId` handler: 200 with the snapshot, or
404 `{detail: 'Job not found'}`. -/
inductive StatusHandlerResult where
  | ok (body : MockStatusResp)
  | notFound (detail : String)
deriving DecidableEq

/-- The `GET /api/status/:jobId` handler in `handlers.ts`. -/
def statusHandler (jobs : List (String × MockJob)) (jobId : String) :
    StatusHandlerResult :=
  match getMockJobStatus jobs jobId with
  | none => .notFound "Job not found"
  | some r => .ok r

/-- Keys of the object literal returned by `getMockJobStatus` for a known id. -/
def mockStatusRespKeys : List String :=
  ["job_id", "filename", "status", "current_step", "total_rows",
   "processed_rows", "error_rows", "errors", "started_at", "completed_at"]

/-- Field names of the `Job`/`JobStatusResponse` data model: the fields of the
`JobStatusResponse` interface declared in `types/job.types.ts`, which also
lists the Job fields of spec §3 (identifier, filename, status, current_step,
row counters, error details, and all four timestamps). -/
def jobStatusResponseInterfaceKeys : List String :=
  ["id", "filename", "file_path", "status", "current_step", "total_rows",
   "processed_rows", "error_rows", "error_details", "error_message",
   "started_at", "completed_at", "created_at", "updated_at"]

/-- JavaScript `toLowerCase` modelled character-wise. -/
def strLower (s : String) : String := String.mk (s.data.map Char.toLower)

/-- Substring occurrence test on character lists (`String.prototype.includes`). -/
def listHasSub : List Char → List Char → Bool
  | [], sub => sub.isEmpty
  | h :: hs, sub => listStarts sub (h :: hs) || listHasSub hs sub

/-- JavaScript `s.includes(sub)`. -/
def strIncludes (s sub : String) : Bool := listHasSub s.data sub.data

/-- The search predicate of `filterEmployees`:
`emp.name.toLowerCase().includes(searchLower) ||
 emp.employee_id.toLowerCase().includes(searchLower)`. -/
def empSearchMatch (q : String) (e : Employee) : Bool :=
  strIncludes (strLower e.name) (strLower q) ||
    strIncludes (strLower e.employee_id) (strLower q)

/-- Sort order parameter (`'asc' | 'desc'`). -/
inductive SortOrder where
  | asc
  | desc
deriving DecidableEq

/-- Dynamic field access `a[sort_by as keyof Employee]`: a string or numeric
value for the eleven Employee fields, `undefined` (`none`) otherwise. -/
def fieldOf (e : Employee) : String → Option (String ⊕ ℤ)
  | "id" => some (.inl e.id)
  | "created_at" => some (.inl e.created_at)
  | "updated_at" => some (.inl e.updated_at)
  | "employee_id" => some (.inl e.employee_id)
  | "name" => some (.inl e.name)
  | "department_code" => some (.inl e.department_code)
  | "salary" => some (.inr e.salary)
  | "hire_date" => some (.inl e.hire_date)
  | "department_name" => some (.inl e.department_name)
  | "annual_salary_eur" => some (.inr e.annual_salary_eur)
  | "tenure_years" => some (.inr e.tenure_years)
  | _ => none

/-- The sort comparator of `filterEmployees`: `localeCompare` (abstracted as
`lc`, a caller-supplied string comparison) on string fields, subtraction on
numeric fields, `0` otherwise, with operands swapped for descending order. -/
def empCompare (lc : String → String → ℤ) (sort_by : String) (order : SortOrder)
    (a b : Employee) : ℤ :=
  match fieldOf a sort_by, fieldOf b sort_by with
  | some (.inl x), some (.inl y) =>
    match order with
    | .asc => lc x y
    | .desc => lc y x
  | some (.inr x), some (.inr y) =>
    match order with
    | .asc => x - y
    | .desc => y - x
  | _, _ => 0

/-- Return shape of `filterEmployees`. -/
structure EmployeesPage where
  employees : List Employee
  total : ℕ
  page : ℕ
  page_size : ℕ
  total_pages : ℕ
deriving DecidableEq

/-- The `if (search) { filtered = filtered.filter(...) }` stage of
`filterEmployees` (`search` absent or empty is falsy and skips the filter). -/
def searchFilter (search : Option String) (emps : List Employee) : List Employee :=
  match search with
  | none => emps
  | some q => if q = "" then emps else emps.filter (empSearchMatch q)

/-- The `if (department) { filtered = filtered.filter(...) }` stage
(`department` absent or empty is falsy and skips the filter). -/
def deptFilter (department : Option String) (emps : List Employee) : List Employee :=
  match department with
  | none => emps
  | some d => if d = "" then emps else emps.filter (fun e => e.department_name == d)

/-- `filterEmployees` from `mockData`: optional search filter, optional exact
department filter, in-place stable sort by the requested field and order,
`total = filtered.length`, `total_pages = Math.ceil(total / page_size)`, and
the page slice `[(page-1)*page_size, page*page_size)`.  `lc` abstracts
`String.prototype.localeCompare`. -/
def filterEmployees (emps : List Employee) (lc : String → String → ℤ)
    (page page_size : ℕ) (sort_by : String) (order : SortOrder)
    (search department : Option String) : EmployeesPage :=
  let f2 := deptFilter department (searchFilter search emps)
  let sorted := f2.mergeSort (fun a b => decide (empCompare lc sort_by order a b ≤ 0))
  let total := sorted.length
  let start := (page - 1) * page_size
  { employees := (sorted.drop start).take page_size
    total := total
    page := page
    page_size := page_size
    total_pages := (⌈(total : ℚ) / (page_size : ℚ)⌉).toNat }

/-- Search clause of the listing as the spec words it: no search text matches
everything, otherwise case-insensitive substring match against name or
employee id. -/
def matchesSearchSpec : Option String → Employee → Bool
  | none, _ => true
  | some q, e => empSearchMatch q e

/-- Category clause of the listing as the spec words it: no department filter
matches everything, otherwise exact equality of `department_name`. -/
def matchesDeptSpec : Option String → Employee → Bool
  | none, _ => true
  | some d, e => e.department_name == d

/-- The employees listing as claim C7 words it: filter all employees by the
search and department clauses at once, sort, take exactly the slice
`[(page-1)*size, page*size)`, and report `total` as the filtered length and
`total_pages` as the ceiling of `total / page_size` (in integer form). -/
def employeesListingSpec (emps : List Employee) (lc : String → String → ℤ)
    (page page_size : ℕ) (sort_by : String) (order : SortOrder)
    (search department : Option String) : EmployeesPage :=
  let filtered := emps.filter
    (fun e => matchesSearchSpec search e && matchesDeptSpec department e)
  let sorted := filtered.mergeSort (fun a b => decide (empCompare lc sort_by order a b ≤ 0))
  { employees := (sorted.take (page * page_size)).drop ((page - 1) * page_size)
    total := filtered.length
    page := page
    page_size := page_size
    total_pages := (filtered.length + page_size - 1) / page_size }

/-- Number of whole calendar years elapsed from `hire` to `today` (the count of
hire anniversaries that have passed), the natural reading of the claim's
"number of whole years elapsed between hire_date and the current date,
truncated (floor)". -/
def wholeYearsElapsed (hire today : Date) : ℤ :=
  (today.year : ℤ) - (hire.year : ℤ) -
    (if today.month < hire.month ∨ (today.month = hire.month ∧ today.day < hire.day)
     then 1 else 0)

/-- Constant functions used to instantiate the abstracted randomness and
timestamp parameters at concrete inputs. -/
def constStr : ℕ → String := fun _ => ""

def constDateStr : Date → String := fun _ => ""

def constNat : ℕ → ℕ := fun _ => 0

/-- Decimal evaluator used as a left inverse of the digit rendering. -/
def decValue (l : List Char) : ℕ := l.foldl (fun a c => 10 * a + (c.toNat - 48)) 0

/-- Constant string comparison used to instantiate `localeCompare`. -/
def lcConst : String → String → ℤ := fun _ _ => 0

theorem goodStep_of_lt {i : ℕ} (h : i < 5) : goodStep i := by
  interval_cases i <;>
    norm_num [goodStep, stepStartRows, stepRows, rowsPerUpdate, stepDuration, simSteps]

theorem currentRowsAt_le_stepRows {i : ℕ} (h : goodStep i) :
    ∀ k, currentRowsAt i k ≤ stepRows i
  | 0 => h.2.1
  | _ + 1 => min_le_right _ _

theorem currentRowsAt_mono {i : ℕ} (h : goodStep i) (k : ℕ) :
    currentRowsAt i k ≤ currentRowsAt i (k + 1) := by
  refine le_min ?_ (currentRowsAt_le_stepRows h k)
  have := h.2.2.1
  linarith

theorem currentRowsAt_nonneg {i : ℕ} (h : goodStep i) : ∀ k, 0 ≤ currentRowsAt i k
  | 0 => h.1
  | k + 1 => le_trans (currentRowsAt_nonneg h k) (currentRowsAt_mono h k)

theorem chain_tickSnaps {base : MockJob} {i : ℕ} (hg : goodStep i) :
    ∀ (r t : ℕ) (x : MockJob) (rest : List MockJob),
      (x.processed_rows : ℚ) ≤ currentRowsAt i t →
      List.Chain procLE (tickSnap base i (t + r + 1)) rest →
      List.Chain procLE x (tickSnaps base i t (r + 1) ++ rest) := by
  intro r
  induction r with
  | zero =>
    intro t x rest hx hrest
    refine List.Chain.cons ?_ hrest
    show x.processed_rows ≤ ⌊currentRowsAt i (t + 1)⌋
    exact Int.le_floor.mpr (le_trans hx (currentRowsAt_mono hg t))
  | succ r ih =>
    intro t x rest hx hrest
    refine List.Chain.cons ?_ ?_
    · show x.processed_rows ≤ ⌊currentRowsAt i (t + 1)⌋
      exact Int.le_floor.mpr (le_trans hx (currentRowsAt_mono hg t))
    · have hx' : ((tickSnap base i (t + 1)).processed_rows : ℚ) ≤ currentRowsAt i (t + 1) :=
        Int.floor_le _
      have hrest' : List.Chain procLE (tickSnap base i ((t + 1) + r + 1)) rest := by
        have : (t + 1) + r + 1 = t + (r + 1) + 1 := by omega
        rw [this]; exact hrest
      exact ih (t + 1) (tickSnap base i (t + 1)) rest hx' hrest'

theorem runBlocks_chain {base : MockJob} {tEnd : String} :
    ∀ (ks : List ℕ) (i : ℕ) (p : ℤ) (x : MockJob),
      x.processed_rows = p →
      (p : ℚ) ≤ stepStartRows i →
      (∀ j, j < ks.length → goodStep (i + j)) →
      (stepStartRows (i + ks.length) ≤ 508) →
      List.Chain procLE x (runBlocks base tEnd i ks p) := by
  intro ks
  induction ks with
  | nil =>
    intro i p x hx hp _ hend
    refine List.Chain.cons ?_ List.Chain.nil
    show x.processed_rows ≤ (totalRows : ℤ)
    have : (p : ℚ) ≤ 508 := le_trans hp (by simpa using hend)
    have hple : p ≤ (508 : ℤ) := by exact_mod_cast this
    simpa [hx, totalRows] using hple
  | cons k ks ih =>
    intro i p x hx hp hgood hend
    have hgi : goodStep i := by simpa using hgood 0 (by simp)
    have hgood' : ∀ j, j < ks.length → goodStep (i + 1 + j) := by
      intro j hj
      have := hgood (j + 1) (by simp; omega)
      have he : i + (j + 1) = i + 1 + j := by omega
      rwa [he] at this
    have hend' : stepStartRows (i + 1 + ks.length) ≤ 508 := by
      have he : i + 1 + ks.length = i + (k :: ks).length := by simp; omega
      rwa [he]
    have hstart' : (stepRows i : ℚ) ≤ stepStartRows (i + 1) := le_of_eq rfl
    refine List.Chain.cons (show x.processed_rows ≤ p by rw [hx]) ?_
    cases k with
    | zero =>
      show List.Chain procLE (enterSnap base i p) (tickSnaps base i 0 0 ++ _)
      have : tickSnaps base i 0 0 = [] := rfl
      rw [this, List.nil_append]
      exact ih (i + 1) p (enterSnap base i p) rfl
        (le_trans (le_trans hp hgi.2.1) hstart') hgood' hend'
    | succ r =>
      refine chain_tickSnaps hgi r 0 (enterSnap base i p) _ ?_ ?_
      · simpa [enterSnap, currentRowsAt] using hp
      · have hfl : ((tickSnap base i (0 + r + 1)).processed_rows : ℚ) ≤ stepStartRows (i + 1) := by
          refine le_trans (le_trans (Int.floor_le _) ?_) hstart'
          exact currentRowsAt_le_stepRows hgi (0 + r + 1)
        have hbe : (tickSnap base i (0 + r + 1)).processed_rows = blockEndRows i (r + 1) p := by
          simp [tickSnap, blockEndRows]
        exact ih (i + 1) (blockEndRows i (r + 1) p) (tickSnap base i (0 + r + 1)) hbe
          (by rw [← hbe]; exact hfl) hgood' hend'

theorem mem_tickSnaps {base : MockJob} {i : ℕ} :
    ∀ (r t : ℕ) (s : MockJob), s ∈ tickSnaps base i t r →
      ∃ u, t < u ∧ u ≤ t + r ∧ s = tickSnap base i u := by
  intro r
  induction r with
  | zero => intro t s hs; simp [tickSnaps] at hs
  | succ r ih =>
    intro t s hs
    rcases List.mem_cons.mp hs with h | h
    · exact ⟨t + 1, by omega, by omega, h⟩
    · rcases ih (t + 1) s h with ⟨u, h1, h2, h3⟩
      exact ⟨u, by omega, by omega, h3⟩

theorem runBlocks_processed_bounds {base : MockJob} {tEnd : String} :
    ∀ (ks : List ℕ) (i : ℕ) (p : ℤ),
      0 ≤ p → (p : ℚ) ≤ stepStartRows i →
      (∀ j, j < ks.length → goodStep (i + j)) →
      ∀ s ∈ runBlocks base tEnd i ks p,
        0 ≤ s.processed_rows ∧ s.processed_rows ≤ (totalRows : ℤ) := by
  intro ks
  induction ks with
  | nil =>
    intro i p _ _ _ s hs
    simp only [runBlocks, List.mem_singleton] at hs
    subst hs
    constructor <;> simp [completedSnap, totalRows]
  | cons k ks ih =>
    intro i p hp0 hps hgood s hs
    have hgi : goodStep i := by simpa using hgood 0 (by simp)
    have hgood' : ∀ j, j < ks.length → goodStep (i + 1 + j) := by
      intro j hj
      have := hgood (j + 1) (by simp; omega)
      have he : i + (j + 1) = i + 1 + j := by omega
      rwa [he] at this
    have hbound : ∀ q : ℚ, q ≤ stepRows i → q ≤ ((totalRows : ℤ) : ℚ) := by
      intro q hq
      refine le_trans hq (le_trans hgi.2.2.2 ?_)
      norm_num [totalRows]
    simp only [runBlocks, List.mem_append, List.mem_cons] at hs
    rcases hs with (h | h) | h
    · subst h
      refine ⟨by simpa [enterSnap] using hp0, ?_⟩
      have : (p : ℚ) ≤ ((totalRows : ℤ) : ℚ) := hbound _ (le_trans hps hgi.2.1)
      have h508 : p ≤ (totalRows : ℤ) := by exact_mod_cast this
      simpa [enterSnap] using h508
    · rcases mem_tickSnaps k 0 s h with ⟨u, hu1, _, rfl⟩
      constructor
      · show (0 : ℤ) ≤ ⌊currentRowsAt i u⌋
        exact Int.le_floor.mpr (by simpa using currentRowsAt_nonneg hgi u)
      · show ⌊currentRowsAt i u⌋ ≤ (totalRows : ℤ)
        have : (⌊currentRowsAt i u⌋ : ℚ) ≤ ((totalRows : ℤ) : ℚ) :=
          hbound _ (le_trans (Int.floor_le _) (currentRowsAt_le_stepRows hgi u))
        exact_mod_cast this
    · have hp0' : 0 ≤ blockEndRows i k p := by
        cases k with
        | zero => simpa [blockEndRows] using hp0
        | succ r =>
          show (0 : ℤ) ≤ ⌊currentRowsAt i (r + 1)⌋
          exact Int.le_floor.mpr (by simpa using currentRowsAt_nonneg hgi (r + 1))
      have hps' : ((blockEndRows i k p : ℤ) : ℚ) ≤ stepStartRows (i + 1) := by
        cases k with
        | zero => exact le_trans (by simpa [blockEndRows] using hps) hgi.2.1
        | succ r =>
          show ((⌊currentRowsAt i (r + 1)⌋ : ℤ) : ℚ) ≤ stepStartRows (i + 1)
          exact le_trans (Int.floor_le _) (currentRowsAt_le_stepRows hgi (r + 1))
      exact ih (i + 1) (blockEndRows i k p) hp0' hps' hgood' s h

theorem map_status_tickSnaps {base : MockJob} {i : ℕ} :
    ∀ (r t : ℕ), (tickSnaps base i t r).map (fun s => s.status) =
      List.replicate r JobStatus.processing := by
  intro r
  induction r with
  | zero => intro t; rfl
  | succ r ih => intro t; simp [tickSnaps, tickSnap, ih (t + 1), List.replicate_succ]

theorem map_status_runBlocks {base : MockJob} {tEnd : String} :
    ∀ (ks : List ℕ) (i : ℕ) (p : ℤ),
      (runBlocks base tEnd i ks p).map (fun s => s.status) =
        List.replicate (ks.length + ks.sum) JobStatus.processing ++
          [JobStatus.completed] := by
  intro ks
  induction ks with
  | nil => intro i p; simp [runBlocks, completedSnap]
  | cons k ks ih =>
    intro i p
    have hcount : 1 + k + (ks.length + ks.sum) = (k :: ks).length + (k :: ks).sum := by
      simp; omega
    calc (runBlocks base tEnd i (k :: ks) p).map (fun s => s.status)
        = (JobStatus.processing :: List.replicate k JobStatus.processing) ++
            (List.replicate (ks.length + ks.sum) JobStatus.processing ++
              [JobStatus.completed]) := by
          simp [runBlocks, enterSnap, map_status_tickSnaps, ih]
      _ = List.replicate ((k :: ks).length + (k :: ks).sum) JobStatus.processing ++
            [JobStatus.completed] := by
          rw [← List.append_assoc, ← List.replicate_succ, ← List.replicate_add]
          congr 2
          simp
          omega

theorem runBlocks_getLast? {base : MockJob} {tEnd : String} :
    ∀ (ks : List ℕ) (i : ℕ) (p : ℤ),
      (runBlocks base tEnd i ks p).getLast? = some (completedSnap base tEnd) := by
  intro ks
  induction ks with
  | nil => intro i p; rfl
  | cons k ks ih =>
    intro i p
    rw [runBlocks, List.getLast?_append, ih]
    rfl

theorem chain_processing_replicate (M : ℕ) :
    List.Chain allowedTransition .processing
      (List.replicate M JobStatus.processing ++ [JobStatus.completed]) := by
  induction M with
  | zero => exact List.Chain.cons (Or.inr (Or.inr ⟨rfl, Or.inl rfl⟩)) List.Chain.nil
  | succ M ih =>
    rw [List.replicate_succ, List.cons_append]
    exact List.Chain.cons (Or.inl rfl) ih

/-- C1: along every observable history of a job created through the upload
interface, `processed_rows` is non-decreasing from snapshot to snapshot, stays
within `[0, total_rows] = [0, 508]`, ends at exactly 508 on completion, and the
per-step ceilings of the simulation are `0, 100, 300, 450, 500`, themselves
non-decreasing. -/
theorem C1_processed_rows_monotone_bounded
    (job_id filename t0 tEnd : String) (file_size k0 k1 k2 k3 k4 : ℕ) :
    List.Chain' procLE
        (jobTrace (createMockJob job_id filename file_size t0) tEnd
          [k0, k1, k2, k3, k4]) ∧
      (∀ s ∈ jobTrace (createMockJob job_id filename file_size t0) tEnd
          [k0, k1, k2, k3, k4],
        0 ≤ s.processed_rows ∧ s.processed_rows ≤ (totalRows : ℤ)) ∧
      ((jobTrace (createMockJob job_id filename file_size t0) tEnd
          [k0, k1, k2, k3, k4]).getLast?).map (fun s => s.processed_rows) =
        some (totalRows : ℤ) ∧
      simSteps.map (fun s => s.2.2) = [0, 100, 300, 450, 500] ∧
      List.Chain' (fun a b => a ≤ b) (simSteps.map fun s => s.2.2) := by
  set base := createMockJob job_id filename file_size t0 with hbase
  have hproc : base.processed_rows = 0 := rfl
  have hgood : ∀ j, j < ([k0, k1, k2, k3, k4] : List ℕ).length → goodStep (0 + j) := by
    intro j hj
    simp at hj
    have : j < 5 := by omega
    simpa using goodStep_of_lt this
  have hend : stepStartRows (0 + ([k0, k1, k2, k3, k4] : List ℕ).length) ≤ 508 := by
    norm_num [stepStartRows, stepRows, simSteps]
  refine ⟨?_, ?_, ?_, rfl, ?chainsteps⟩
  case chainsteps =>
    show List.Chain' (fun a b => a ≤ b) [0, 100, 300, 450, 500]
    simp [List.chain'_cons, List.chain'_singleton]
  · show List.Chain procLE base (runBlocks base tEnd 0 [k0, k1, k2, k3, k4] base.processed_rows)
    exact runBlocks_chain _ 0 base.processed_rows base rfl
      (by rw [hproc]; norm_num [stepStartRows]) hgood hend
  · intro s hs
    rcases List.mem_cons.mp hs with h | h
    · subst h; constructor <;> simp [hbase, createMockJob, totalRows]
    · exact runBlocks_processed_bounds _ 0 base.processed_rows (le_of_eq hproc.symm)
        (by rw [hproc]; norm_num [stepStartRows]) hgood s h
  · show ((base :: runBlocks base tEnd 0 [k0, k1, k2, k3, k4] base.processed_rows).getLast?).map
        (fun s => s.processed_rows) = some (totalRows : ℤ)
    rw [← List.singleton_append, List.getLast?_append, runBlocks_getLast?]
    rfl

theorem jobTrace_status_shape (job_id filename t0 tEnd : String)
    (file_size : ℕ) (ks : List ℕ) :
    (jobTrace (createMockJob job_id filename file_size t0) tEnd ks).map
        (fun s => s.status) =
      JobStatus.pending ::
        (List.replicate (ks.length + ks.sum) JobStatus.processing ++
          [JobStatus.completed]) := by
  simp [jobTrace, map_status_runBlocks, createMockJob]

/-- C2: the status of a job created through the upload interface starts at
`pending`, switches to `processing` when the first progression step runs, every
adjacent pair of observed statuses is an allowed transition of
`Pending → Processing → {Completed, Failed}`, the history ends in `completed`,
and no terminal status appears anywhere before the last snapshot. -/
theorem C2_status_transitions
    (job_id filename t0 tEnd : String) (file_size k0 k1 k2 k3 k4 : ℕ) :
    List.Chain' allowedTransition
        ((jobTrace (createMockJob job_id filename file_size t0) tEnd
          [k0, k1, k2, k3, k4]).map fun s => s.status) ∧
      ((jobTrace (createMockJob job_id filename file_size t0) tEnd
          [k0, k1, k2, k3, k4]).map fun s => s.status).head? =
        some JobStatus.pending ∧
      ((jobTrace (createMockJob job_id filename file_size t0) tEnd
          [k0, k1, k2, k3, k4]).map fun s => s.status).get? 1 =
        some JobStatus.processing ∧
      ((jobTrace (createMockJob job_id filename file_size t0) tEnd
          [k0, k1, k2, k3, k4]).map fun s => s.status).getLast? =
        some JobStatus.completed ∧
      ∀ s ∈ ((jobTrace (createMockJob job_id filename file_size t0) tEnd
          [k0, k1, k2, k3, k4]).map fun s => s.status).dropLast,
        s ≠ JobStatus.completed ∧ s ≠ JobStatus.failed := by
  rw [jobTrace_status_shape]
  have hN : ∃ M, ([k0, k1, k2, k3, k4] : List ℕ).length +
      ([k0, k1, k2, k3, k4] : List ℕ).sum = M + 1 := by
    refine ⟨4 + (k0 + k1 + k2 + k3 + k4), ?_⟩
    simp
    omega
  rcases hN with ⟨M, hM⟩
  rw [hM]
  refine ⟨?_, rfl, ?_, ?_, ?_⟩
  · show List.Chain allowedTransition JobStatus.pending _
    rw [List.replicate_succ, List.cons_append]
    exact List.Chain.cons (Or.inr (Or.inl ⟨rfl, rfl⟩)) (chain_processing_replicate M)
  · rw [List.replicate_succ]
    rfl
  · rw [← List.cons_append, List.getLast?_append]
    rfl
  · rw [← List.cons_append, List.dropLast_append]
    intro s hs
    simp at hs
    rcases hs with h | h <;> subst h <;> exact ⟨by simp, by simp⟩

/-- C3: a job whose simulated pipeline runs to the end yields a terminal
snapshot whose status is `completed` (never `failed`), with
`processed_rows = total_rows` and `error_rows` equal to the number of entries
of the returned `errors` list, which is positive. -/
theorem C3_completed_with_errors
    (job_id filename t0 tEnd : String) (file_size k0 k1 k2 k3 k4 : ℕ) :
    (jobTrace (createMockJob job_id filename file_size t0) tEnd
        [k0, k1, k2, k3, k4]).getLast? =
      some (completedSnap (createMockJob job_id filename file_size t0) tEnd) ∧
      (statusRespOf
          (completedSnap (createMockJob job_id filename file_size t0) tEnd)).status =
        JobStatus.completed ∧
      (statusRespOf
          (completedSnap (createMockJob job_id filename file_size t0) tEnd)).processed_rows =
        (statusRespOf
          (completedSnap (createMockJob job_id filename file_size t0) tEnd)).total_rows ∧
      (statusRespOf
          (completedSnap (createMockJob job_id filename file_size t0) tEnd)).error_rows =
        ((statusRespOf
          (completedSnap (createMockJob job_id filename file_size t0) tEnd)).errors.length : ℤ) ∧
      0 < (statusRespOf
          (completedSnap (createMockJob job_id filename file_size t0) tEnd)).error_rows := by
  refine ⟨?_, rfl, rfl, ?_, ?_⟩
  · rw [jobTrace, ← List.singleton_append, List.getLast?_append, runBlocks_getLast?]
    rfl
  · simp [statusRespOf, completedSnap]
  · simp [statusRespOf, completedSnap, MOCK_JOB_ERRORS]

/-- C10: the simulated progression of a job created through the upload
interface never reaches status `failed` at any observable point, while the
pre-seeded demo store does contain a job (`demo-failed-job-001`) whose status
is `failed` — so `failed` is observable only on the seeded demo jobs. -/
theorem C10_failed_only_preseeded
    (job_id filename t0 tEnd t1 t2 t3 t4 t5 t6 : String)
    (file_size k0 k1 k2 k3 k4 : ℕ) :
    (∀ s ∈ jobTrace (createMockJob job_id filename file_size t0) tEnd
        [k0, k1, k2, k3, k4], s.status ≠ JobStatus.failed) ∧
      ∃ j : MockJob, ("demo-failed-job-001", j) ∈ initSampleJobs t1 t2 t3 t4 t5 t6 ∧
        j.status = JobStatus.failed := by
  constructor
  · intro s hs
    have hmem : s.status ∈ (jobTrace (createMockJob job_id filename file_size t0) tEnd
        [k0, k1, k2, k3, k4]).map (fun s => s.status) :=
      List.mem_map_of_mem _ hs
    rw [jobTrace_status_shape] at hmem
    simp at hmem
    rcases hmem with h | h | h <;> rw [h] <;> simp
  · have hj : ("demo-failed-job-001",
        ({ job_id := "demo-failed-job-001"
           filename := "corrupted_data.xls"
           file_size := 98304
           status := .failed
           current_step := "validating"
           started_at := t5
           completed_at := some t6
           processed_rows := 150
           employee_count := 0 } : MockJob)) ∈ initSampleJobs t1 t2 t3 t4 t5 t6 := by
      simp [initSampleJobs]
    exact ⟨_, hj, rfl⟩

theorem employees_uploadHandler (w : World) (file : Option FileInfo) (id now : String) :
    (uploadHandler w file id now).2.employees = w.employees := by
  cases file with
  | none => rfl
  | some f =>
    by_cases h1 : strEndsWith f.name ".xlsx" = true ∨ strEndsWith f.name ".xls" = true <;>
      by_cases h2 : MAX_UPLOAD_BYTES < f.size <;>
        simp [uploadHandler, h1, h2]

theorem employees_simulateJobWorld (w : World) (id : String) (ks : List ℕ) (tEnd : String) :
    (simulateJobWorld w id ks tEnd).employees = w.employees := by
  unfold simulateJobWorld
  cases List.lookup id w.jobs <;> simp

theorem employees_uploadAndProcess (w : World) (file : Option FileInfo)
    (id now tEnd : String) (ks : List ℕ) :
    (uploadAndProcess w file id now tEnd ks).employees = w.employees := by
  unfold uploadAndProcess
  rcases hres : uploadHandler w file id now with ⟨r, w'⟩
  have hw' : w'.employees = w.employees := by
    have h := employees_uploadHandler w file id now
    rw [hres] at h
    exact h
  cases r <;> simp [hw', employees_simulateJobWorld]

/-- C4: uploading the same file twice (including each job's entire simulated
progression) leaves the destination employees table exactly as it was — the
same list, hence the same row count for every `employee_id` — because neither
job creation nor the progression writes to `MOCK_EMPLOYEES`. -/
theorem C4_repeat_upload_leaves_employees
    (w : World) (file : Option FileInfo) (id1 id2 now1 now2 tEnd1 tEnd2 : String)
    (ks1 ks2 : List ℕ) :
    (uploadAndProcess (uploadAndProcess w file id1 now1 tEnd1 ks1)
        file id2 now2 tEnd2 ks2).employees = w.employees ∧
      (uploadAndProcess w file id1 now1 tEnd1 ks1).employees = w.employees ∧
      ∀ eid : String,
        ((uploadAndProcess (uploadAndProcess w file id1 now1 tEnd1 ks1)
            file id2 now2 tEnd2 ks2).employees.filter
          (fun e => e.employee_id == eid)).length =
        ((uploadAndProcess w file id1 now1 tEnd1 ks1).employees.filter
          (fun e => e.employee_id == eid)).length := by
  have h1 := employees_uploadAndProcess w file id1 now1 tEnd1 ks1
  have h2 := employees_uploadAndProcess (uploadAndProcess w file id1 now1 tEnd1 ks1)
    file id2 now2 tEnd2 ks2
  refine ⟨h2.trans h1, h1, ?_⟩
  intro eid
  rw [h2]

/-- C5: the upload endpoint accepts exactly when a file is present, its name
ends in `.xlsx` or `.xls`, and its size is at most `10 * 1024 * 1024` bytes;
on acceptance the returned fresh id maps to a newly stored job with status
`pending` and `processed_rows = 0`, and on rejection (400/413) the state is
unchanged, so no job is created. -/
theorem C5_upload_validation
    (w : World) (file : Option FileInfo) (id now : String) :
    ((uploadHandler w file id now).1 = UploadResult.ok id ↔
        validUploadFile file = true) ∧
      (∀ f, file = some f → (uploadHandler w file id now).1 = UploadResult.ok id →
        List.lookup id (uploadHandler w file id now).2.jobs =
            some (createMockJob id f.name f.size now) ∧
          (createMockJob id f.name f.size now).status = JobStatus.pending ∧
          (createMockJob id f.name f.size now).processed_rows = 0) ∧
      ((uploadHandler w file id now).1 ≠ UploadResult.ok id →
        (uploadHandler w file id now).2 = w) := by
  cases file with
  | none =>
    exact ⟨by simp [uploadHandler, validUploadFile], by simp, by simp [uploadHandler]⟩
  | some f =>
    by_cases h1 : strEndsWith f.name ".xlsx" = true ∨ strEndsWith f.name ".xls" = true
    · by_cases h2 : MAX_UPLOAD_BYTES < f.size
      · refine ⟨?_, ?_, ?_⟩
        · simp only [uploadHandler, h1, h2, not_true, if_neg, if_pos, ite_true, ite_false]
          simp [validUploadFile, MAX_UPLOAD_BYTES] at h2 ⊢
          intro hor
          omega
        · intro f' hf' hok
          exfalso
          simp [uploadHandler, h1, h2] at hok
        · intro _
          simp [uploadHandler, h1, h2]
      · refine ⟨?_, ?_, ?_⟩
        · constructor
          · intro _
            simp [validUploadFile, MAX_UPLOAD_BYTES] at h1 h2 ⊢
            rcases h1 with h | h <;> simp [h] <;> omega
          · intro _
            simp [uploadHandler, h1, h2]
        · intro f' hf' _
          cases hf'
          refine ⟨?_, rfl, rfl⟩
          simp [uploadHandler, h1, h2, setJob, List.lookup]
        · intro hok
          exfalso
          exact hok (by simp [uploadHandler, h1, h2])
    · refine ⟨?_, ?_, ?_⟩
      · constructor
        · intro hok
          exfalso
          simp [uploadHandler, h1] at hok
        · intro hv
          exfalso
          simp [validUploadFile] at hv
          exact h1 (by tauto)
      · intro f' hf' hok
        exfalso
        simp [uploadHandler, h1] at hok
      · intro _
        simp [uploadHandler, h1]

/-- C6 counterexample: the data model's Job fields include the `created_at` and
`updated_at` timestamps (declared in the `JobStatusResponse` interface), but
the snapshot object actually returned by `getMockJobStatus` carries neither —
its key set stops at `completed_at` — so the returned snapshot does not contain
all Job fields of the data model. -/
theorem C6_counterexample :
    ("created_at" ∈ jobStatusResponseInterfaceKeys ∧
        "updated_at" ∈ jobStatusResponseInterfaceKeys) ∧
      "created_at" ∉ mockStatusRespKeys ∧ "updated_at" ∉ mockStatusRespKeys := by
  decide

/-- C6 (amended): for a known job id the status interface returns a snapshot
carrying exactly the fields `job_id`, `filename`, `status`, `current_step`,
`total_rows`, `processed_rows`, `error_rows`, `errors`, `started_at`,
`completed_at` (each populated from the stored job; no `created_at`/`updated_at`),
and for an unknown id it returns `null`, which the HTTP handler maps to 404. -/
theorem C6_status_snapshot_or_404
    (jobs : List (String × MockJob)) (id : String) :
    (getMockJobStatus jobs id = none ↔ List.lookup id jobs = none) ∧
      (statusHandler jobs id = StatusHandlerResult.notFound "Job not found" ↔
        List.lookup id jobs = none) ∧
      (∀ j, List.lookup id jobs = some j →
        getMockJobStatus jobs id = some (statusRespOf j) ∧
          statusHandler jobs id = StatusHandlerResult.ok (statusRespOf j) ∧
          (statusRespOf j).job_id = j.job_id ∧
          (statusRespOf j).filename = j.filename ∧
          (statusRespOf j).status = j.status ∧
          (statusRespOf j).current_step = j.current_step ∧
          (statusRespOf j).total_rows = (totalRows : ℤ) ∧
          (statusRespOf j).processed_rows = j.processed_rows ∧
          (statusRespOf j).started_at = j.started_at ∧
          (statusRespOf j).completed_at = j.completed_at) ∧
      mockStatusRespKeys =
        ["job_id", "filename", "status", "current_step", "total_rows",
         "processed_rows", "error_rows", "errors", "started_at", "completed_at"] ∧
      "created_at" ∉ mockStatusRespKeys ∧ "updated_at" ∉ mockStatusRespKeys := by
  refine ⟨?_, ?_, ?_, rfl, by decide, by decide⟩
  · unfold getMockJobStatus
    cases List.lookup id jobs <;> simp
  · unfold statusHandler getMockJobStatus
    cases List.lookup id jobs <;> simp
  · intro j hj
    unfold statusHandler getMockJobStatus
    rw [hj]
    exact ⟨rfl, rfl, rfl, rfl, rfl, rfl, rfl, rfl, rfl, rfl⟩

theorem ceil_div_toNat (n s : ℕ) (hs : 1 ≤ s) :
    (⌈(n : ℚ) / (s : ℚ)⌉).toNat = (n + s - 1) / s := by
  have hs0 : (0 : ℚ) < (s : ℚ) := by exact_mod_cast hs
  have hmod : s * ((n + s - 1) / s) + (n + s - 1) % s = n + s - 1 :=
    Nat.div_add_mod _ _
  have hr : (n + s - 1) % s < s := Nat.mod_lt _ (by omega)
  have h2 : (s : ℤ) * ((n + s - 1) / s : ℕ) + ((n + s - 1) % s : ℕ) =
      ((n + s - 1 : ℕ) : ℤ) := by exact_mod_cast hmod
  have h3 : ((n + s - 1 : ℕ) : ℤ) = (n : ℤ) + s - 1 := by
    push_cast [Nat.cast_sub (by omega : 1 ≤ n + s)]
    ring
  have h4 : (((n + s - 1) % s : ℕ) : ℤ) < (s : ℤ) := by exact_mod_cast hr
  have h1 : (n : ℤ) ≤ ((n + s - 1) / s : ℕ) * s := by
    rw [h3] at h2
    have h4' : (0 : ℤ) ≤ (((n + s - 1) % s : ℕ) : ℤ) := by positivity
    linarith
  have h5 : (((n + s - 1) / s : ℕ) : ℤ) * s < (n : ℤ) + s := by
    rw [h3] at h2
    have h4' : (0 : ℤ) ≤ (((n + s - 1) % s : ℕ) : ℤ) := by positivity
    linarith
  have hceil : ⌈(n : ℚ) / (s : ℚ)⌉ = (((n + s - 1) / s : ℕ) : ℤ) := by
    rw [Int.ceil_eq_iff]
    constructor
    · rw [lt_div_iff₀ hs0]
      have : ((((n + s - 1) / s : ℕ) : ℤ) : ℚ) * s < (n : ℚ) + s := by
        exact_mod_cast h5
      push_cast at this ⊢
      linarith
    · rw [div_le_iff₀ hs0]
      exact_mod_cast h1
  rw [hceil]
  exact Int.toNat_natCast _

theorem listHasSub_nil (hay : List Char) : listHasSub hay [] = true := by
  cases hay <;> simp [listHasSub, listStarts]

theorem empSearchMatch_empty (e : Employee) : empSearchMatch "" e = true := by
  have hdata : (strLower "").data = [] := rfl
  simp [empSearchMatch, strIncludes, hdata, listHasSub_nil]

theorem matchesSearchSpec_none : matchesSearchSpec none = fun _ => true := rfl

theorem matchesSearchSpec_some (q : String) :
    matchesSearchSpec (some q) = empSearchMatch q := rfl

theorem matchesDeptSpec_none : matchesDeptSpec none = fun _ => true := rfl

theorem matchesDeptSpec_some (d : String) :
    matchesDeptSpec (some d) = fun e => e.department_name == d := rfl

theorem searchFilter_eq (search : Option String) (emps : List Employee) :
    searchFilter search emps = emps.filter (matchesSearchSpec search) := by
  cases search with
  | none => simp [searchFilter, matchesSearchSpec_none]
  | some q =>
    by_cases hq : q = ""
    · subst hq
      rw [searchFilter, if_pos rfl, matchesSearchSpec_some,
        List.filter_congr (fun e _ => empSearchMatch_empty e)]
      simp
    · simp [searchFilter, matchesSearchSpec_some, hq]

theorem deptFilter_eq (department : Option String) (emps : List Employee)
    (hd : department ≠ some "") :
    deptFilter department emps = emps.filter (matchesDeptSpec department) := by
  cases department with
  | none => simp [deptFilter, matchesDeptSpec_none]
  | some d =>
    have hne : ¬ d = "" := fun h => hd (by rw [h])
    simp [deptFilter, matchesDeptSpec_some, hne]

/-- C7: for every 1-based page, positive page size, search text, department
filter (the handler never passes an empty department), sort field and order,
`filterEmployees` returns exactly what the spec describes: the slice
`[(page-1)*size, page*size)` of the filtered-then-sorted list, `total` equal to
the filtered length, and `total_pages` equal to the ceiling of
`total / page_size`. -/
theorem C7_employees_listing_paginates
    (emps : List Employee) (lc : String → String → ℤ)
    (page page_size : ℕ) (sort_by : String) (order : SortOrder)
    (search department : Option String)
    (hp : 1 ≤ page) (hs : 1 ≤ page_size) (hd : department ≠ some "") :
    filterEmployees emps lc page page_size sort_by order search department =
      employeesListingSpec emps lc page page_size sort_by order search department := by
  have hpred : ∀ e ∈ emps,
      (matchesDeptSpec department e && matchesSearchSpec search e) =
        (matchesSearchSpec search e && matchesDeptSpec department e) :=
    fun e _ => Bool.and_comm _ _
  have hfilters : deptFilter department (searchFilter search emps) =
      emps.filter (fun e => matchesSearchSpec search e && matchesDeptSpec department e) := by
    rw [searchFilter_eq, deptFilter_eq _ _ hd, List.filter_filter,
      List.filter_congr hpred]
  simp only [filterEmployees, employeesListingSpec, hfilters,
    EmployeesPage.mk.injEq]
  set filtered := emps.filter
    (fun e => matchesSearchSpec search e && matchesDeptSpec department e)
  set sorted := filtered.mergeSort
    (fun a b => decide (empCompare lc sort_by order a b ≤ 0)) with hsorted
  have hlen : sorted.length = filtered.length := List.length_mergeSort _
  have hslice : (sorted.drop ((page - 1) * page_size)).take page_size =
      (sorted.take (page * page_size)).drop ((page - 1) * page_size) := by
    rw [List.drop_take]
    have harith : page * page_size - (page - 1) * page_size = page_size := by
      obtain ⟨p, rfl⟩ : ∃ p, page = p + 1 := ⟨page - 1, by omega⟩
      simp [Nat.succ_mul]
    rw [harith]
  exact ⟨hslice, hlen, trivial, trivial, by rw [hlen, ceil_div_toNat _ _ hs]⟩

theorem floor_div_avg_year (a : ℤ) :
    ⌊(a : ℚ) / ((36525 : ℚ) / 100 * (24 * 60 * 60 * 1000))⌋ = a / 31557600000 := by
  have hden : ((36525 : ℚ) / 100 * (24 * 60 * 60 * 1000)) = ((31557600000 : ℕ) : ℚ) := by
    norm_num
  rw [hden, Rat.floor_intCast_div_natCast]
  rfl

theorem mkEmployee_tenure (uuidOf : ℕ → String) (salaryOf : ℕ → ℕ)
    (isoOf isoDateOf : Date → String) (nowIso : String) (today : Date) (i : ℕ) :
    (mkEmployee uuidOf salaryOf isoOf isoDateOf nowIso today i).tenure_years =
      ((dayNumber today : ℤ) - (dayNumber (hireDateOf i) : ℤ)) * 86400000 /
        31557600000 := by
  show ⌊((epochMs today - epochMs (hireDateOf i) : ℤ) : ℚ) /
      ((36525 : ℚ) / 100 * (24 * 60 * 60 * 1000))⌋ = _
  rw [floor_div_avg_year]
  unfold epochMs
  ring_nf

theorem jsRound_salary (s : ℤ) : jsRound ((s : ℚ) * (92 / 100)) = (46 * s + 25) / 50 := by
  unfold jsRound
  have harg : (s : ℚ) * (92 / 100) + 1 / 2 = ((46 * s + 25 : ℤ) : ℚ) / ((50 : ℕ) : ℚ) := by
    push_cast
    ring
  rw [harg, Rat.floor_intCast_div_natCast]
  rfl

theorem mkEmployee_salary_eur (uuidOf : ℕ → String) (salaryOf : ℕ → ℕ)
    (isoOf isoDateOf : Date → String) (nowIso : String) (today : Date) (i : ℕ) :
    (mkEmployee uuidOf salaryOf isoOf isoDateOf nowIso today i).annual_salary_eur =
      (46 * (mkEmployee uuidOf salaryOf isoOf isoDateOf nowIso today i).salary + 25) / 50 :=
  jsRound_salary _

theorem mkEmployee_department (uuidOf : ℕ → String) (salaryOf : ℕ → ℕ)
    (isoOf isoDateOf : Date → String) (nowIso : String) (today : Date) (i : ℕ) :
    List.lookup (mkEmployee uuidOf salaryOf isoOf isoDateOf nowIso today i).department_code
        DEPARTMENTS =
      some (mkEmployee uuidOf salaryOf isoOf isoDateOf nowIso today i).department_name := by
  show List.lookup ((deptCodes.get? (i % deptCodes.length)).getD "") DEPARTMENTS =
    some ((List.lookup ((deptCodes.get? (i % deptCodes.length)).getD "") DEPARTMENTS).getD "")
  have hlen : deptCodes.length = 6 := rfl
  have hr : i % deptCodes.length < 6 := by
    rw [hlen]
    exact Nat.mod_lt _ (by norm_num)
  set r := i % deptCodes.length with hrdef
  interval_cases r <;> rfl

theorem generateEmployees_get? (uuidOf : ℕ → String) (salaryOf : ℕ → ℕ)
    (isoOf isoDateOf : Date → String) (nowIso : String) (today : Date)
    (count i : ℕ) (hi : i < count) :
    (generateEmployees uuidOf salaryOf isoOf isoDateOf nowIso today count)[i]? =
      some (mkEmployee uuidOf salaryOf isoOf isoDateOf nowIso today i) := by
  unfold generateEmployees
  rw [List.getElem?_map, List.getElem?_range hi]
  rfl

/-- C8 counterexample: run on 2026-06-02, the generator's record at index 113
(hired 2016-06-02) carries `tenure_years = 9`, yet exactly 10 whole calendar
years have elapsed between the hire date and the current date — the code's
`Math.floor(elapsedMs / (365.25 * 24 * 60 * 60 * 1000))` undercounts on
anniversary days whose span contains fewer than `0.25 * years` leap days. -/
theorem C8_counterexample :
    (generateEmployees constStr constNat constDateStr constDateStr ""
        ⟨2026, 6, 2⟩ 500)[113]? =
      some (mkEmployee constStr constNat constDateStr constDateStr ""
        ⟨2026, 6, 2⟩ 113) ∧
      hireDateOf 113 = ⟨2016, 6, 2⟩ ∧
      (mkEmployee constStr constNat constDateStr constDateStr ""
        ⟨2026, 6, 2⟩ 113).tenure_years = 9 ∧
      wholeYearsElapsed (hireDateOf 113) ⟨2026, 6, 2⟩ = 10 ∧ (9 : ℤ) ≠ 10 := by
  refine ⟨generateEmployees_get? _ _ _ _ _ _ _ _ (by norm_num), by decide, ?_, by decide,
    by decide⟩
  rw [mkEmployee_tenure]
  decide

/-- C8 (amended): every record produced by the generator satisfies:
`department_name` is the canonical `DEPARTMENTS` mapping of its
`department_code`; `annual_salary_eur` is the salary converted at the fixed
rate 0.92 and rounded to the nearest whole unit (`(46*s + 25) / 50`); and
`tenure_years` is the floor of the elapsed time divided by an average
365.25-day year, i.e. `elapsedDays * 86400000 / 31557600000` — an
approximation that can differ from the calendar whole-years count on
anniversary days. -/
theorem C8_transformed_attributes (uuidOf : ℕ → String) (salaryOf : ℕ → ℕ)
    (isoOf isoDateOf : Date → String) (nowIso : String) (today : Date)
    (count i : ℕ) (hi : i < count) :
    (generateEmployees uuidOf salaryOf isoOf isoDateOf nowIso today count)[i]? =
        some (mkEmployee uuidOf salaryOf isoOf isoDateOf nowIso today i) ∧
      List.lookup (mkEmployee uuidOf salaryOf isoOf isoDateOf nowIso today i).department_code
          DEPARTMENTS =
        some (mkEmployee uuidOf salaryOf isoOf isoDateOf nowIso today i).department_name ∧
      (mkEmployee uuidOf salaryOf isoOf isoDateOf nowIso today i).annual_salary_eur =
        (46 * (mkEmployee uuidOf salaryOf isoOf isoDateOf nowIso today i).salary + 25) / 50 ∧
      (mkEmployee uuidOf salaryOf isoOf isoDateOf nowIso today i).tenure_years =
        ((dayNumber today : ℤ) - (dayNumber (hireDateOf i) : ℤ)) * 86400000 /
          31557600000 :=
  ⟨generateEmployees_get? _ _ _ _ _ _ _ _ hi,
    mkEmployee_department _ _ _ _ _ _ _,
    mkEmployee_salary_eur _ _ _ _ _ _ _,
    mkEmployee_tenure _ _ _ _ _ _ _⟩

/-- Witness for C8 (amended) at a concrete index. -/
theorem C8_transformed_attributes_witness :
    0 < 500 ∧
      (mkEmployee constStr constNat constDateStr constDateStr ""
          ⟨2026, 10, 12⟩ 0).annual_salary_eur =
        (46 * (mkEmployee constStr constNat constDateStr constDateStr ""
          ⟨2026, 10, 12⟩ 0).salary + 25) / 50 :=
  ⟨by norm_num,
    (C8_transformed_attributes constStr constNat constDateStr constDateStr ""
      ⟨2026, 10, 12⟩ 500 0 (by norm_num)).2.2.1⟩

theorem foldl_digitChars (ds : List ℕ) (h : ∀ d ∈ ds, d < 10) :
    ∀ A : ℕ, ((ds.reverse).map Nat.digitChar).foldl
        (fun a c => 10 * a + (c.toNat - 48)) A =
      A * 10 ^ ds.length + Nat.ofDigits 10 ds := by
  induction ds with
  | nil => intro A; simp
  | cons d ds ih =>
    intro A
    have hd : d < 10 := h d (List.mem_cons_self _ _)
    have hchar : (Nat.digitChar d).toNat - 48 = d := by interval_cases d <;> rfl
    simp only [List.reverse_cons, List.map_append, List.foldl_append]
    rw [ih (fun x hx => h x (List.mem_cons_of_mem _ hx)) A]
    have hof : (Nat.ofDigits 10 (d :: ds) : ℕ) = d + 10 * Nat.ofDigits 10 ds :=
      Nat.ofDigits_cons
    simp only [List.map_cons, List.map_nil, List.foldl_cons, List.foldl_nil, hchar,
      List.length_cons, hof, pow_succ]
    ring

theorem decValue_decDigitChars (n : ℕ) : decValue (decDigitChars n) = n := by
  unfold decValue decDigitChars
  rw [foldl_digitChars _ (fun d hd => Nat.digits_lt_base (by norm_num) hd) 0]
  simp [Nat.ofDigits_digits]

theorem decValue_padStart4 (l : List Char) : decValue (padStart4 l) = decValue l := by
  unfold decValue padStart4
  rw [List.foldl_append]
  have hzeros : ∀ k, List.foldl (fun a c => 10 * a + (c.toNat - 48)) 0
      (List.replicate k '0') = 0 := by
    intro k
    induction k with
    | zero => rfl
    | succ k ih => simpa [List.replicate_succ] using ih
  rw [hzeros]

theorem employeeIdOf_inj {i j : ℕ} (h : employeeIdOf i = employeeIdOf j) : i = j := by
  have hdata : ('E' :: padStart4 (decDigitChars (i + 1))) =
      ('E' :: padStart4 (decDigitChars (j + 1))) := by
    have hd := congrArg String.data h
    simpa [employeeIdOf, String.data_append] using hd
  have hl : padStart4 (decDigitChars (i + 1)) = padStart4 (decDigitChars (j + 1)) :=
    (List.cons.injEq _ _ _ _ ▸ hdata :
      'E' = 'E' ∧ padStart4 (decDigitChars (i + 1)) = padStart4 (decDigitChars (j + 1))).2
  have hv := congrArg decValue hl
  rw [decValue_padStart4, decValue_padStart4, decValue_decDigitChars,
    decValue_decDigitChars] at hv
  omega

/-- C9: `generateEmployees` assigns position `i` the identifier
`'E' ++ zero-padded decimal of (i+1)`, and any two distinct positions receive
distinct `employee_id` values, so the generated destination table holds at
most one record per `employee_id`. -/
theorem C9_employee_ids_unique (uuidOf : ℕ → String) (salaryOf : ℕ → ℕ)
    (isoOf isoDateOf : Date → String) (nowIso : String) (today : Date)
    (n i j : ℕ) (hi : i < n) (hj : j < n) (hij : i ≠ j) :
    (generateEmployees uuidOf salaryOf isoOf isoDateOf nowIso today n)[i]? =
        some (mkEmployee uuidOf salaryOf isoOf isoDateOf nowIso today i) ∧
      (mkEmployee uuidOf salaryOf isoOf isoDateOf nowIso today i).employee_id =
        employeeIdOf i ∧
      (mkEmployee uuidOf salaryOf isoOf isoDateOf nowIso today i).employee_id ≠
        (mkEmployee uuidOf salaryOf isoOf isoDateOf nowIso today j).employee_id := by
  refine ⟨generateEmployees_get? _ _ _ _ _ _ _ _ hi, rfl, ?_⟩
  show employeeIdOf i ≠ employeeIdOf j
  intro hcontra
  exact hij (employeeIdOf_inj hcontra)

/-- Witness for C9 at two concrete positions. -/
theorem C9_employee_ids_unique_witness :
    0 < 500 ∧ 1 < 500 ∧ 0 ≠ 1 ∧
      (mkEmployee constStr constNat constDateStr constDateStr ""
          ⟨2026, 10, 12⟩ 0).employee_id ≠
        (mkEmployee constStr constNat constDateStr constDateStr ""
          ⟨2026, 10, 12⟩ 1).employee_id :=
  ⟨by norm_num, by norm_num, by norm_num,
    (C9_employee_ids_unique constStr constNat constDateStr constDateStr ""
      ⟨2026, 10, 12⟩ 500 0 1 (by norm_num) (by norm_num) (by norm_num)).2.2⟩

/-- Witness for C1 at concrete tick counts. -/
theorem C1_processed_rows_monotone_bounded_witness :
    List.Chain' procLE
      (jobTrace (createMockJob "job-c1" "c1.xlsx" 100 "t0") "t1" [1, 2, 3, 4, 5]) :=
  (C1_processed_rows_monotone_bounded "job-c1" "c1.xlsx" "t0" "t1" 100 1 2 3 4 5).1

/-- Witness for C2 at concrete tick counts. -/
theorem C2_status_transitions_witness :
    ((jobTrace (createMockJob "job-c2" "c2.xlsx" 200 "t0") "t1"
        [2, 0, 1, 4, 3]).map fun s => s.status).getLast? =
      some JobStatus.completed :=
  (C2_status_transitions "job-c2" "c2.xlsx" "t0" "t1" 200 2 0 1 4 3).2.2.2.1

/-- Witness for C3 at concrete tick counts. -/
theorem C3_completed_with_errors_witness :
    (statusRespOf
        (completedSnap (createMockJob "job-c3" "c3.xlsx" 300 "t0") "t1")).status =
      JobStatus.completed :=
  (C3_completed_with_errors "job-c3" "c3.xlsx" "t0" "t1" 300 0 1 2 3 4).2.1

/-- Witness for C4 at a concrete world and file. -/
theorem C4_repeat_upload_leaves_employees_witness :
    (uploadAndProcess
        (uploadAndProcess ⟨[], []⟩ (some ⟨"data.xlsx", 4096⟩) "id1" "n1" "e1" [1, 1, 1, 1, 1])
        (some ⟨"data.xlsx", 4096⟩) "id2" "n2" "e2" [2, 2, 2, 2, 2]).employees =
      (World.mk [] []).employees :=
  (C4_repeat_upload_leaves_employees ⟨[], []⟩ (some ⟨"data.xlsx", 4096⟩)
    "id1" "id2" "n1" "n2" "e1" "e2" [1, 1, 1, 1, 1] [2, 2, 2, 2, 2]).1

/-- Witness for C5 at a concrete accepted file. -/
theorem C5_upload_validation_witness :
    ((uploadHandler ⟨[], []⟩ (some ⟨"payroll.xlsx", 1000⟩) "fresh-id" "now").1 =
        UploadResult.ok "fresh-id" ↔
      validUploadFile (some ⟨"payroll.xlsx", 1000⟩) = true) :=
  (C5_upload_validation ⟨[], []⟩ (some ⟨"payroll.xlsx", 1000⟩) "fresh-id" "now").1

/-- Witness for C6 (amended) at a concrete store and id. -/
theorem C6_status_snapshot_or_404_witness :
    (getMockJobStatus [] "nope" = none ↔ List.lookup "nope" ([] : List (String × MockJob)) = none) :=
  (C6_status_snapshot_or_404 [] "nope").1

/-- Witness for C7 at concrete listing parameters. -/
theorem C7_employees_listing_paginates_witness :
    1 ≤ 1 ∧ 1 ≤ 20 ∧
      filterEmployees [] lcConst 1 20 "employee_id" SortOrder.asc none none =
        employeesListingSpec [] lcConst 1 20 "employee_id" SortOrder.asc none none :=
  ⟨by norm_num, by norm_num,
    C7_employees_listing_paginates [] lcConst 1 20 "employee_id" SortOrder.asc none none
      (by norm_num) (by norm_num) (by simp)⟩

/-- Witness for C10 at the freshly created pending snapshot. -/
theorem C10_failed_only_preseeded_witness :
    (createMockJob "job-c10" "c10.xlsx" 50 "t0").status ≠ JobStatus.failed :=
  (C10_failed_only_preseeded "job-c10" "c10.xlsx" "t0" "t1" "s1" "s2" "s3" "s4" "s5" "s6"
      50 3 1 4 1 5).1
    (createMockJob "job-c10" "c10.xlsx" 50 "t0")
    (by rw [jobTrace]; exact List.mem_cons_self _ _)
